import Mathlib

/-!
Verification of the levenberg-marquardt curve-fitting routine
(`src/index.js`).  The JavaScript numbers are modelled exactly over the
rationals, extended with `NaN` and the two signed infinities; floating-point
rounding is outside the model, every arithmetic step the theorems depend on
is exact.  The two modules imported by `src/index.js`
(`./errorCalculation` and `./step`) are not part of the sources; the main
entry point is therefore parameterised by them, and concrete instances are
modelled from the specification (sections 4.1 and 4.3).
-/

namespace LM

/-- Rational addition routed through `Rat.divInt` so that concrete values
evaluate by `decide` (the library's `Rat.add` is sealed); equal to `a + b`
by `qadd_eq` below. -/
def qadd (a b : ℚ) : ℚ := Rat.divInt (a.num * b.den + b.num * a.den) (a.den * b.den)

/-- Rational negation through `Rat.divInt`; equal to `-a`. -/
def qneg (a : ℚ) : ℚ := Rat.divInt (-a.num) a.den

/-- Rational multiplication through `Rat.divInt`; equal to `a * b`. -/
def qmul (a b : ℚ) : ℚ := Rat.divInt (a.num * b.num) (a.den * b.den)

/-- Rational division through `Rat.divInt`; equal to `a / b`. -/
def qdiv (a b : ℚ) : ℚ := Rat.divInt (a.num * b.den) (a.den * b.num)

/-- A JavaScript number: `NaN`, `Infinity`/`-Infinity` (`inf true` is the
positive one), or a finite value modelled as a rational. -/
inductive JNum where
  | nan : JNum
  | inf : Bool → JNum
  | num : ℚ → JNum
deriving DecidableEq, Repr

/-- JS unary minus. -/
def jneg : JNum → JNum
  | .nan => .nan
  | .inf b => .inf (!b)
  | .num q => .num (qneg q)

/-- JS addition. -/
def jadd : JNum → JNum → JNum
  | .nan, _ => .nan
  | _, .nan => .nan
  | .inf a, .inf b => if a = b then .inf a else .nan
  | .inf a, .num _ => .inf a
  | .num _, .inf b => .inf b
  | .num a, .num b => .num (qadd a b)

/-- JS subtraction. -/
def jsub (a b : JNum) : JNum := jadd a (jneg b)

/-- JS multiplication. -/
def jmul : JNum → JNum → JNum
  | .nan, _ => .nan
  | _, .nan => .nan
  | .inf a, .inf b => .inf (a = b)
  | .inf a, .num q => if q = 0 then .nan else .inf (a = decide (0 < q))
  | .num q, .inf b => if q = 0 then .nan else .inf (b = decide (0 < q))
  | .num a, .num b => .num (qmul a b)

/-- JS division (no negative zero in the model, so `q / 0` for positive `q`
is the positive infinity). -/
def jdiv : JNum → JNum → JNum
  | .nan, _ => .nan
  | _, .nan => .nan
  | .num a, .num b =>
      if b = 0 then (if a = 0 then .nan else .inf (decide (0 < a)))
      else .num (qdiv a b)
  | .num _, .inf _ => .num 0
  | .inf a, .num q => .inf (a = decide (0 ≤ q))
  | .inf _, .inf _ => .nan

/-- JS `Math.min` on two arguments: `NaN` if either argument is `NaN`. -/
def jmin : JNum → JNum → JNum
  | .nan, _ => .nan
  | _, .nan => .nan
  | .inf true, y => y
  | .inf false, _ => .inf false
  | .num _, .inf false => .inf false
  | .num a, .inf true => .num a
  | .num a, .num b => .num (min a b)

/-- JS `Math.max` on two arguments: `NaN` if either argument is `NaN`. -/
def jmax : JNum → JNum → JNum
  | .nan, _ => .nan
  | _, .nan => .nan
  | .inf true, _ => .inf true
  | .inf false, y => y
  | .num _, .inf true => .inf true
  | .num a, .inf false => .num a
  | .num a, .num b => .num (max a b)

/-- JS `<=` comparison: `false` whenever either side is `NaN`. -/
def jle : JNum → JNum → Bool
  | .nan, _ => false
  | _, .nan => false
  | .inf false, _ => true
  | .inf true, .inf true => true
  | .inf true, _ => false
  | .num _, .inf true => true
  | .num _, .inf false => false
  | .num a, .num b => decide (a ≤ b)

/-- JS `isNaN`. -/
def jIsNaN : JNum → Bool
  | .nan => true
  | _ => false

/-- `Math.min.apply(null, l)`: the empty list gives `Infinity`, any `NaN`
poisons the result. -/
def jminList (l : List JNum) : JNum := l.foldl jmin (.inf true)

/-- `Math.max.apply(null, l)`: the empty list gives `-Infinity`. -/
def jmaxList (l : List JNum) : JNum := l.foldl jmax (.inf false)

/-- A JavaScript value in an option/data slot, as far as the validation code
distinguishes them: a falsy value (`undefined`, `null`, `0`, `NaN`, the empty
string, `false`), an array of numbers, or a truthy non-array value. -/
inductive JsVal where
  | falsy : JsVal
  | arr : List JNum → JsVal
  | nonArr : JsVal
deriving DecidableEq, Repr

/-- JS `a || b`. -/
def jsOr (a b : JsVal) : JsVal :=
  match a with
  | .falsy => b
  | x => x

/-- Truthiness test used by `!data.x`. -/
def jsFalsy : JsVal → Bool
  | .falsy => true
  | _ => false

/-- `v.length` as the validation code reads it: a number for arrays,
`undefined` (`none`) otherwise. -/
def jsLength : JsVal → Option ℕ
  | .arr l => some l.length
  | _ => none

/-- The length used to size the default bound arrays
(`new Array(parameters.length)`).  For a truthy non-array without a numeric
length the constructor receives `undefined` and produces a one-element
array, hence `1`; the `falsy` case cannot reach this point (`jsOr` has
already replaced it by a default array). -/
def jsParLen : JsVal → ℕ
  | .arr l => l.length
  | .nonArr => 1
  | .falsy => 0

/-- The elements an array-indexing expression sees: out-of-range indices and
non-arrays give `undefined`, which the arithmetic in the clamp coerces to
`NaN`; `List.getD` with the `.nan` default reproduces this. -/
def jsElems : JsVal → List JNum
  | .arr l => l
  | _ => []

/-- `Number.MAX_SAFE_INTEGER`, the value `2 ^ 53 - 1`. -/
def maxSafeInteger : ℚ := 9007199254740991

/-- `Number.MIN_SAFE_INTEGER`, the value `-(2 ^ 53 - 1)`. -/
def minSafeInteger : ℚ := -9007199254740991

/-- The curried model: `parameterizedFunction(parameters)(x)`. -/
abbrev Model := List JNum → JNum → JNum

/-- Type of the imported `errorCalculation(data, parameters, fn)`. -/
abbrev EC := List JNum × List JNum → List JNum → Model → JNum

/-- Type of the imported `step(data, params, damping, gradientDifference, fn)`. -/
abbrev ST := List JNum × List JNum → List JNum → JNum → JNum → Model → List JNum

/-- The `data` argument: an object whose `x` and `y` slots may each hold
anything. -/
structure JsData where
  x : JsVal
  y : JsVal
deriving DecidableEq, Repr

/-- The recognized options with the defaults the destructuring in
`levenbergMarquardt` applies.  The `onIteration` field records whether the
caller put such a key in the options object; the source destructures no such
key, so nothing ever reads it. -/
structure Options where
  maxIterations : ℕ := 100
  gradientDifference : JNum := .num (Rat.divInt 1 10)
  damping : JNum := .num 0
  errorTolerance : JNum := .num (Rat.divInt 1 100)
  minValues : JsVal := .falsy
  maxValues : JsVal := .falsy
  initialValues : JsVal := .falsy
  alignToData : Bool := false
  logAfterIteration : Bool := false
  onIteration : Option Unit := none
deriving Repr

/-- The returned object `{parameterValues, parameterError, iterations}`. -/
structure FitOut where
  parameterValues : List JNum
  parameterError : JNum
  iterations : ℕ
deriving DecidableEq, Repr

/-- Observable side-channel events of a fit run.  `log` is the
`console.log` line guarded by `logAfterIteration`; `callback` stands for an
invocation of an `onIteration` observer (the source never emits one). -/
inductive Event where
  | log : JNum → List JNum → Event
  | callback : JNum → List JNum → Event
deriving DecidableEq, Repr

/-- `getLinearParams(dataMin, dataMax, funMin, funMax)` from the source. -/
def getLinearParams (dataMin dataMax funMin funMax : JNum) : JNum × JNum :=
  let a := jdiv (jsub dataMin dataMax) (jsub funMin funMax)
  let b := jsub dataMax (jmul a funMax)
  (a, b)

/-- `alignedFunction(f, dataMin, dataMax, toAlign)` from the source. -/
def alignedFunction (f : Model) (dataMin dataMax : JNum) (toAlign : List JNum) :
    Model :=
  let funMin := jminList toAlign
  let funMax := jmaxList toAlign
  let params := getLinearParams dataMin dataMax funMin funMax
  fun paramsToFit x => jadd (jmul params.1 (f paramsToFit x)) params.2

/-- The clamp loop
`for k < parLen: parameters[k] = Math.min(Math.max(minValues[k], parameters[k]), maxValues[k])`.
Indices beyond the current array length read `undefined` (coerced to `NaN` by
`Math.max`) and writing them extends the array, so the result has length
`max parLen params.length`. -/
def clampParams (minL maxL : List JNum) (parLen : ℕ) (params : List JNum) :
    List JNum :=
  (List.range (max parLen params.length)).map fun k =>
    if k < parLen then
      jmin (jmax (minL.getD k .nan) (params.getD k .nan)) (maxL.getD k .nan)
    else params.getD k .nan

/-- Everything the loop body reads but does not change. -/
structure LoopCtx where
  ec : EC
  st : ST
  xs : List JNum
  ys : List JNum
  f : Model
  alignToData : Bool
  logAfterIteration : Bool
  damping : JNum
  gradientDifference : JNum
  errorTolerance : JNum
  dataMin : JNum
  dataMax : JNum
  minL : List JNum
  maxL : List JNum
  parLen : ℕ

/-- One pass of the loop body up to the `isNaN` test: build the (possibly
aligned) model, take a step, clamp, recompute the error. -/
def lmPass (c : LoopCtx) (params : List JNum) : List JNum × JNum :=
  let alignedFun :=
    if c.alignToData then
      alignedFunction c.f c.dataMin c.dataMax (c.xs.map (c.f params))
    else c.f
  let params1 := c.st (c.xs, c.ys) params c.damping c.gradientDifference alignedFun
  let params2 := clampParams c.minL c.maxL c.parLen params1
  (params2, c.ec (c.xs, c.ys) params2 alignedFun)

/-- The `for` loop of `levenbergMarquardt`, with
`fuel = maxIterations - iteration` making the `iteration < maxIterations`
guard structural.  Returns the final `(parameters, error, iteration)`
together with the emitted events.  The `break` on `NaN` exits before the
`iteration++` update and before the log line. -/
def lmGo (c : LoopCtx) : ℕ → ℕ → List JNum → JNum → Bool →
    FitOut × List Event
  | 0, iter, params, error, _ => (⟨params, error, iter⟩, [])
  | _ + 1, iter, params, error, true => (⟨params, error, iter⟩, [])
  | fuel + 1, iter, params, _, false =>
      let pe := lmPass c params
      if jIsNaN pe.2 then (⟨pe.1, pe.2, iter⟩, [])
      else
        let rest := lmGo c fuel (iter + 1) pe.1 pe.2 (jle pe.2 c.errorTolerance)
        (rest.1,
          (if c.logAfterIteration then [Event.log pe.2 pe.1] else []) ++ rest.2)

/-- `levenbergMarquardt(data, parameterizedFunction, options)` from the
source, parameterised by the two imported modules `errorCalculation` and
`step` (their files are not part of the sources).  `fLen` is the JS arity
`parameterizedFunction.length`.  Thrown errors become `Except.error` with the
thrown message; a normal return pairs the result object with the list of
side-channel events. -/
def levenbergMarquardtGen (ec : EC) (st : ST) (data : JsData) (f : Model)
    (fLen : ℕ) (o : Options) : Except String (FitOut × List Event) :=
  if jle o.damping (.num 0) then
    .error "The damping option must be a positive number"
  else if jsFalsy data.x || jsFalsy data.y then
    .error "The data parameter must have x and y elements"
  else
    match data.x, data.y with
    | .arr xs, .arr ys =>
      if xs.length < 2 || ys.length < 2 then
        .error "The data parameter elements must be an array with more than 2 points"
      else if xs.length ≠ ys.length then
        .error "The data parameter elements must have the same size"
      else
        let dataMin := jminList ys
        let dataMax := jmaxList ys
        let parametersV := jsOr o.initialValues (.arr (List.replicate fLen (.num 1)))
        let parLen := jsParLen parametersV
        let maxV := jsOr o.maxValues (.arr (List.replicate parLen (.num maxSafeInteger)))
        let minV := jsOr o.minValues (.arr (List.replicate parLen (.num minSafeInteger)))
        if jsLength maxV ≠ jsLength minV then
          .error "minValues and maxValues must be the same size"
        else
          match parametersV with
          | .arr params0 =>
            let error0 := ec (xs, ys) params0 f
            .ok (lmGo
              ⟨ec, st, xs, ys, f, o.alignToData, o.logAfterIteration,
                o.damping, o.gradientDifference, o.errorTolerance,
                dataMin, dataMax, jsElems minV, jsElems maxV, parLen⟩
              o.maxIterations 0 params0 error0 (jle error0 o.errorTolerance))
          | _ => .error "initialValues must be an array"
    | _, _ =>
      .error "The data parameter elements must be an array with more than 2 points"

/-- Sum of a list of JS numbers, starting from `0`. -/
def jsumList (l : List JNum) : JNum := l.foldl jadd (.num 0)

/-- Newton iteration for the integer square root, with structural fuel. -/
def isqrtIter : ℕ → ℕ → ℕ → ℕ
  | 0, _, guess => guess
  | fuel + 1, n, guess =>
      let next := (guess + n / guess) / 2
      if next < guess then isqrtIter fuel n next else guess

/-- Integer (floor) square root; a structurally recursive stand-in for the
library routine so that concrete runs evaluate by `decide`. -/
def isqrt (n : ℕ) : ℕ := if n ≤ 1 then n else isqrtIter n n (n / 2)

/-- Rational square root helper: `√(n/d) = √(n·d)/d`.  Exact whenever the
argument is the square of a rational, otherwise a floor-style approximation
standing in for the inexact floating-point `Math.sqrt`; no theorem below
depends on an approximated value. -/
def ratSqrt (q : ℚ) : ℚ := Rat.divInt (isqrt (q.num.toNat * q.den)) q.den

/-- JS `Math.sqrt` on the model: `NaN` on negatives and `-Infinity`. -/
def jsqrt : JNum → JNum
  | .nan => .nan
  | .inf true => .inf true
  | .inf false => .nan
  | .num q => if q < 0 then .nan else .num (ratSqrt q)

/-- Modelled from the spec: `errorCalculation(data, parameters, fn)` lives in
`src/errorCalculation.js`, which is not among the sources.  Section 4.1: for
each sample the residual is `y_i - fn(parameters)(x_i)` and the result is the
square root of the sum of squared residuals; `NaN` from the model propagates
unmasked. -/
def errorCalculation : EC := fun data params f =>
  jsqrt (jsumList (List.zipWith
    (fun y x => jmul (jsub y (f params x)) (jsub y (f params x))) data.2 data.1))

/-- Modelled from the spec: `parameters` with entry `k` perturbed by `delta`, the finite-difference perturbation of section 4.2 (part of the missing `src/step.js`). -/
def perturb (params : List JNum) (k : ℕ) (delta : JNum) : List JNum :=
  params.mapIdx fun i p => if i = k then jadd p delta else p

/-- Modelled from the spec: the forward finite-difference Jacobian of section
4.2, one row per sample, one column per parameter. -/
def jacobianSpec (xs params : List JNum) (f : Model) (gd : JNum) :
    List (List JNum) :=
  xs.map fun x => (List.range params.length).map fun k =>
    jdiv (jsub (f (perturb params k gd) x) (f params x)) gd

/-- Modelled from the spec: the damped approximate Hessian `Jᵗ·J + damping·I` of section 4.3 (part of the missing `src/step.js`). -/
def dampedHessian (J : List (List JNum)) (n : ℕ) (damping : JNum) :
    List (List JNum) :=
  (List.range n).map fun a => (List.range n).map fun b =>
    jadd (jsumList (J.map fun row => jmul (row.getD a .nan) (row.getD b .nan)))
      (if a = b then damping else .num 0)

/-- Modelled from the spec: the gradient-like vector `Jᵗ·r` of section 4.3 (part of the missing `src/step.js`). -/
def gradientVec (J : List (List JNum)) (n : ℕ) (r : List JNum) : List JNum :=
  (List.range n).map fun a =>
    jsumList (List.zipWith (fun row ri => jmul (row.getD a .nan) ri) J r)

/-- Finite entries of a JS number. -/
def toQ : JNum → Option ℚ
  | .num q => some q
  | _ => none

/-- All-finite extraction of a vector. -/
def toQList (l : List JNum) : Option (List ℚ) := l.mapM toQ

/-- All-finite extraction of a matrix. -/
def toQMat (m : List (List JNum)) : Option (List (List ℚ)) := m.mapM toQList

/-- Determinant by Laplace expansion along the first row, with a structural
fuel equal to the number of rows. -/
def detAux : ℕ → List (List ℚ) → ℚ
  | 0, _ => 1
  | _, [] => 1
  | fuel + 1, r :: rs =>
      (List.range r.length).foldl
        (fun acc j =>
          qadd acc (qmul (qmul (if j % 2 = 0 then 1 else -1) (r.getD j 0))
            (detAux fuel (rs.map fun row => row.eraseIdx j)))) 0

/-- Determinant of a square rational matrix given as rows. -/
def detQ (m : List (List ℚ)) : ℚ := detAux m.length m

/-- Modelled from the spec: the linear solve of section 4.3 step 4.  The
dense solver is a consumed capability (section 1), modelled by Cramer's
rule; a singular or non-finite system propagates as `NaN` parameters, as
section 4.3 demands. -/
def solveLinear (H : List (List JNum)) (g : List JNum) (n : ℕ) : List JNum :=
  match toQMat H, toQList g with
  | some Hq, some gq =>
      let d := detQ Hq
      if d = 0 then List.replicate n .nan
      else
        (List.range n).map fun a =>
          .num (qdiv (detQ (List.zipWith (fun row gi => row.set a gi) Hq gq)) d)
  | _, _ => List.replicate n .nan

/-- Modelled from the spec: `step(data, parameters, damping, gradientDifference, fn)`
lives in `src/step.js`, which is not among the sources.  Section 4.3: build
the residual vector and the finite-difference Jacobian, form
`H = Jᵗ·J + damping·I` and `g = Jᵗ·r`, solve `H·Δ = g` and return
`parameters + Δ`. -/
def step : ST := fun data params damping gd f =>
  let r := List.zipWith (fun y x => jsub y (f params x)) data.2 data.1
  let J := jacobianSpec data.1 params f gd
  let n := params.length
  let H := dampedHessian J n damping
  let g := gradientVec J n r
  List.zipWith jadd params (solveLinear H g n)

/-- The entry point with the two imported modules instantiated by their
spec-modelled versions. -/
def levenbergMarquardt : JsData → Model → ℕ → Options →
    Except String (FitOut × List Event) :=
  levenbergMarquardtGen errorCalculation step

/-- Whether an `Except` is the error case. -/
def isErr {ε α : Type} : Except ε α → Bool
  | .error _ => true
  | .ok _ => false

/-- The data-related validation conditions of section 7: `x` or `y` missing
or not a sequence, fewer than 2 elements, or mismatched lengths. -/
def dataBad (d : JsData) : Bool :=
  match d.x, d.y with
  | .arr xs, .arr ys =>
      decide (xs.length < 2) || decide (ys.length < 2) ||
        decide (xs.length ≠ ys.length)
  | _, _ => true

/-- A truthy non-array value. -/
def isNonArr : JsVal → Bool
  | .nonArr => true
  | _ => false

/-- The bounds validation condition of section 7: `minValues`/`maxValues`
lengths unequal, after the absent one is defaulted to a parameter-sized
array (a non-array has no length, i.e. `none`). -/
def boundsMismatch (fLen : ℕ) (o : Options) : Bool :=
  let parLen := jsParLen (jsOr o.initialValues (.arr (List.replicate fLen (.num 1))))
  decide
    (jsLength (jsOr o.maxValues (.arr (List.replicate parLen (.num maxSafeInteger)))) ≠
      jsLength (jsOr o.minValues (.arr (List.replicate parLen (.num minSafeInteger)))))

/-- The full disjunction of validation conditions from section 7: damping
missing or not positive, bad data, unequal bound lengths, or a present
non-sequence `initialValues`. -/
def validationFails (data : JsData) (fLen : ℕ) (o : Options) : Bool :=
  jle o.damping (.num 0) || dataBad data || boundsMismatch fLen o ||
    isNonArr o.initialValues

/-- Whether `v` respects numeric bounds `lo ≤ v ≤ hi`, read as the bounds
invariant: trivially true when a bound is non-numeric or the bounds are
inverted, and `NaN` entries are tolerated (a clamp of `NaN` stays `NaN`). -/
def boundedAt (lo hi v : JNum) : Bool :=
  match lo, hi with
  | .num a, .num b =>
      if a ≤ b then
        match v with
        | .nan => true
        | .num q => decide (a ≤ q) && decide (q ≤ b)
        | .inf _ => false
      else true
  | _, _ => true

/-- The bounds invariant over the first `parLen` parameter slots. -/
def inBounds (minL maxL : List JNum) (parLen : ℕ) (ps : List JNum) : Bool :=
  (List.range parLen).all fun k =>
    boundedAt (minL.getD k .nan) (maxL.getD k .nan) (ps.getD k .nan)

theorem qadd_eq (a b : ℚ) : qadd a b = a + b := by
  rw [qadd]
  conv_rhs => rw [← Rat.num_divInt_den a, ← Rat.num_divInt_den b]
  rw [Rat.divInt_add_divInt _ _ (Int.natCast_ne_zero.2 a.den_nz)
    (Int.natCast_ne_zero.2 b.den_nz)]

theorem qneg_eq (a : ℚ) : qneg a = -a := by
  rw [qneg]
  conv_rhs => rw [← Rat.num_divInt_den a]
  rw [← Rat.neg_divInt]

theorem qmul_eq (a b : ℚ) : qmul a b = a * b := by
  rw [qmul]
  conv_rhs => rw [← Rat.num_divInt_den a, ← Rat.num_divInt_den b]
  rw [Rat.divInt_mul_divInt']

theorem qdiv_eq (a b : ℚ) : qdiv a b = a / b := by
  rw [qdiv]
  conv_rhs => rw [← Rat.num_divInt_den a, ← Rat.num_divInt_den b]
  rw [Rat.divInt_div_divInt]

theorem jle_true_not_nan {a b : JNum} (h : jle a b = true) : jIsNaN a = false := by
  cases a <;> cases b <;> simp_all [jle, jIsNaN]

theorem lmGo_zero (c : LoopCtx) (iter : ℕ) (params : List JNum) (error : JNum)
    (conv : Bool) : lmGo c 0 iter params error conv = (⟨params, error, iter⟩, []) := rfl

theorem lmGo_conv (c : LoopCtx) (fuel iter : ℕ) (params : List JNum)
    (error : JNum) :
    lmGo c (fuel + 1) iter params error true = (⟨params, error, iter⟩, []) := rfl

theorem lmGo_succ (c : LoopCtx) (fuel iter : ℕ) (params : List JNum)
    (error : JNum) :
    lmGo c (fuel + 1) iter params error false =
      if jIsNaN (lmPass c params).2 then
        (⟨(lmPass c params).1, (lmPass c params).2, iter⟩, [])
      else
        ((lmGo c fuel (iter + 1) (lmPass c params).1 (lmPass c params).2
            (jle (lmPass c params).2 c.errorTolerance)).1,
          (if c.logAfterIteration then [Event.log (lmPass c params).2 (lmPass c params).1]
            else []) ++
            (lmGo c fuel (iter + 1) (lmPass c params).1 (lmPass c params).2
              (jle (lmPass c params).2 c.errorTolerance)).2) := rfl

theorem fitGen_ok_eq (ec : EC) (st : ST) (xs ys : List JNum) (f : Model)
    (fLen : ℕ) (o : Options) (ps0 : List JNum)
    (hdamp : jle o.damping (.num 0) = false)
    (hx : 2 ≤ xs.length) (hy : 2 ≤ ys.length) (hxy : xs.length = ys.length)
    (hinit : jsOr o.initialValues (.arr (List.replicate fLen (.num 1))) = .arr ps0)
    (hb : jsLength (jsOr o.maxValues (.arr (List.replicate ps0.length (.num maxSafeInteger)))) =
          jsLength (jsOr o.minValues (.arr (List.replicate ps0.length (.num minSafeInteger))))) :
    levenbergMarquardtGen ec st ⟨.arr xs, .arr ys⟩ f fLen o =
      .ok (lmGo
        ⟨ec, st, xs, ys, f, o.alignToData, o.logAfterIteration, o.damping,
          o.gradientDifference, o.errorTolerance, jminList ys, jmaxList ys,
          jsElems (jsOr o.minValues (.arr (List.replicate ps0.length (.num minSafeInteger)))),
          jsElems (jsOr o.maxValues (.arr (List.replicate ps0.length (.num maxSafeInteger)))),
          ps0.length⟩
        o.maxIterations 0 ps0 (ec (xs, ys) ps0 f)
        (jle (ec (xs, ys) ps0 f) o.errorTolerance)) := by
  have hy2 : ¬ (ys.length < 2) := by omega
  have hx2 : ¬ (xs.length < 2) := by omega
  simp only [levenbergMarquardtGen, hdamp, Bool.false_eq_true, if_false, jsFalsy,
    Bool.or_self, hinit, jsParLen, hx2, hy2, hxy, hb, ne_eq,
    not_true_eq_false, not_false_eq_true, if_true, Bool.or_false]
  simp

theorem lmGo_iterations_le (c : LoopCtx) : ∀ fuel iter ps e conv,
    ((lmGo c fuel iter ps e conv).1).iterations ≤ iter + fuel := by
  intro fuel
  induction fuel with
  | zero => intro iter ps e conv; simp [lmGo_zero]
  | succ n ih =>
      intro iter ps e conv
      cases conv with
      | true => simp [lmGo_conv]
      | false =>
          rw [lmGo_succ]
          cases hn : jIsNaN (lmPass c ps).2 with
          | true => simp [hn]
          | false =>
              simp only [hn, Bool.false_eq_true, if_false]
              have h := ih (iter + 1) (lmPass c ps).1 (lmPass c ps).2
                (jle (lmPass c ps).2 c.errorTolerance)
              omega

theorem lmGo_iterations_ge (c : LoopCtx) : ∀ fuel iter ps e conv,
    iter ≤ ((lmGo c fuel iter ps e conv).1).iterations := by
  intro fuel
  induction fuel with
  | zero => intro iter ps e conv; simp [lmGo_zero]
  | succ n ih =>
      intro iter ps e conv
      cases conv with
      | true => simp [lmGo_conv]
      | false =>
          rw [lmGo_succ]
          cases hn : jIsNaN (lmPass c ps).2 with
          | true => simp [hn]
          | false =>
              simp only [hn, Bool.false_eq_true, if_false]
              have h := ih (iter + 1) (lmPass c ps).1 (lmPass c ps).2
                (jle (lmPass c ps).2 c.errorTolerance)
              omega

theorem lmGo_trace_nil (c : LoopCtx) (hlog : c.logAfterIteration = false) :
    ∀ fuel iter ps e conv, (lmGo c fuel iter ps e conv).2 = [] := by
  intro fuel
  induction fuel with
  | zero => intro iter ps e conv; simp [lmGo_zero]
  | succ n ih =>
      intro iter ps e conv
      cases conv with
      | true => simp [lmGo_conv]
      | false =>
          rw [lmGo_succ]
          cases hn : jIsNaN (lmPass c ps).2 with
          | true => simp [hn]
          | false => simp [hn, hlog, ih]

theorem lmGo_trace_length (c : LoopCtx) (hlog : c.logAfterIteration = true) :
    ∀ fuel iter ps e conv,
      (lmGo c fuel iter ps e conv).2.length + iter =
        ((lmGo c fuel iter ps e conv).1).iterations := by
  intro fuel
  induction fuel with
  | zero => intro iter ps e conv; simp [lmGo_zero]
  | succ n ih =>
      intro iter ps e conv
      cases conv with
      | true => simp [lmGo_conv]
      | false =>
          rw [lmGo_succ]
          cases hn : jIsNaN (lmPass c ps).2 with
          | true => simp [hn]
          | false =>
              simp only [hn, Bool.false_eq_true, if_false, hlog, if_true,
                List.length_append, List.length_cons, List.length_nil]
              have h := ih (iter + 1) (lmPass c ps).1 (lmPass c ps).2
                (jle (lmPass c ps).2 c.errorTolerance)
              omega

theorem lmGo_trace_mem (c : LoopCtx) : ∀ fuel iter ps e conv ev,
    ev ∈ (lmGo c fuel iter ps e conv).2 →
      ∃ er qs, ev = .log er qs ∧ jIsNaN er = false := by
  intro fuel
  induction fuel with
  | zero => intro iter ps e conv ev h; simp [lmGo_zero] at h
  | succ n ih =>
      intro iter ps e conv ev h
      cases conv with
      | true => simp [lmGo_conv] at h
      | false =>
          rw [lmGo_succ] at h
          cases hn : jIsNaN (lmPass c ps).2 with
          | true => simp [hn] at h
          | false =>
              simp only [hn, Bool.false_eq_true, if_false, List.mem_append] at h
              rcases h with h | h
              · cases hlog : c.logAfterIteration with
                | true =>
                    simp only [hlog, if_true, List.mem_singleton] at h
                    exact ⟨(lmPass c ps).2, (lmPass c ps).1, h, hn⟩
                | false => simp [hlog] at h
              · exact ih (iter + 1) (lmPass c ps).1 (lmPass c ps).2
                  (jle (lmPass c ps).2 c.errorTolerance) ev h

theorem getD_range_map (n : ℕ) (g : ℕ → JNum) (k : ℕ) (hk : k < n) :
    ((List.range n).map g).getD k .nan = g k := by
  rw [List.getD_eq_getElem?_getD, List.getElem?_map, List.getElem?_range hk]
  rfl

theorem boundedAt_clamp (lo hi v : JNum) :
    boundedAt lo hi (jmin (jmax lo v) hi) = true := by
  cases lo with
  | nan => cases hi <;> cases v <;> simp [boundedAt, jmin, jmax]
  | inf b => cases b <;> cases hi <;> cases v <;> simp [boundedAt, jmin, jmax]
  | num a =>
      cases hi with
      | nan => cases v <;> simp [boundedAt, jmin, jmax]
      | inf b => cases b <;> cases v <;> simp [boundedAt, jmin, jmax]
      | num b =>
          by_cases hab : a ≤ b
          · cases v with
            | nan => simp [boundedAt, jmin, jmax, hab]
            | inf c =>
                cases c <;>
                  simp [boundedAt, jmin, jmax, hab, le_refl, min_eq_left]
            | num q =>
                simp only [jmax, jmin, boundedAt, hab, if_true,
                  Bool.and_eq_true, decide_eq_true_eq]
                exact ⟨le_inf (le_max_left a q) hab, inf_le_right⟩
          · cases v with
            | nan => simp [boundedAt, jmin, jmax, hab]
            | inf c => cases c <;> simp [boundedAt, jmin, jmax, hab]
            | num q => simp [boundedAt, jmin, jmax, hab]

theorem inBounds_clampParams (minL maxL : List JNum) (parLen : ℕ)
    (q : List JNum) :
    inBounds minL maxL parLen (clampParams minL maxL parLen q) = true := by
  rw [inBounds, List.all_eq_true]
  intro k hk
  rw [List.mem_range] at hk
  rw [clampParams, getD_range_map _ _ k (lt_of_lt_of_le hk (le_max_left _ _))]
  simp only [hk, if_true]
  exact boundedAt_clamp _ _ _

theorem lmPass_fst (c : LoopCtx) (ps : List JNum) :
    (lmPass c ps).1 = clampParams c.minL c.maxL c.parLen
      (c.st (c.xs, c.ys) ps c.damping c.gradientDifference
        (if c.alignToData then
          alignedFunction c.f c.dataMin c.dataMax (c.xs.map (c.f ps))
        else c.f)) := rfl

theorem lmGo_inBounds (c : LoopCtx) : ∀ fuel iter ps e conv,
    inBounds c.minL c.maxL c.parLen ps = true →
    inBounds c.minL c.maxL c.parLen
      ((lmGo c fuel iter ps e conv).1).parameterValues = true := by
  intro fuel
  induction fuel with
  | zero => intro iter ps e conv h; simpa [lmGo_zero] using h
  | succ n ih =>
      intro iter ps e conv h
      cases conv with
      | true => simpa [lmGo_conv] using h
      | false =>
          rw [lmGo_succ]
          cases hn : jIsNaN (lmPass c ps).2 with
          | true =>
              simp only [hn, if_true]
              rw [lmPass_fst]
              exact inBounds_clampParams _ _ _ _
          | false =>
              simp only [hn, Bool.false_eq_true, if_false]
              apply ih
              rw [lmPass_fst]
              exact inBounds_clampParams _ _ _ _

theorem lmGo_stop (c : LoopCtx) (fuel iter : ℕ) (params : List JNum)
    (error : JNum) :
    lmGo c fuel iter params error true = (⟨params, error, iter⟩, []) := by
  cases fuel with
  | zero => rfl
  | succ n => rfl

/-- C1.  If the initial error is at most `errorTolerance`, the fit returns
at once with zero iterations, the initial parameters and the initial error,
and no events; and in general, a loop pass whose recomputed error is at most
`errorTolerance` makes the loop stop at that exact iteration, returning that
pass's clamped parameters — no further update step is applied, whatever fuel
remains.  `ec` and `st` are arbitrary, so this holds for any implementation
of the two imported modules. -/
theorem claim1_convergence_stops :
    (∀ (ec : EC) (st : ST) (xs ys : List JNum) (f : Model) (fLen : ℕ)
      (o : Options) (ps0 : List JNum),
      jle o.damping (.num 0) = false →
      2 ≤ xs.length → 2 ≤ ys.length → xs.length = ys.length →
      jsOr o.initialValues (.arr (List.replicate fLen (.num 1))) = .arr ps0 →
      jsLength (jsOr o.maxValues (.arr (List.replicate ps0.length (.num maxSafeInteger)))) =
        jsLength (jsOr o.minValues (.arr (List.replicate ps0.length (.num minSafeInteger)))) →
      jle (ec (xs, ys) ps0 f) o.errorTolerance = true →
      levenbergMarquardtGen ec st ⟨.arr xs, .arr ys⟩ f fLen o =
        .ok (⟨ps0, ec (xs, ys) ps0 f, 0⟩, [])) ∧
    (∀ (c : LoopCtx) (fuel iter : ℕ) (ps : List JNum) (e : JNum),
      jle (lmPass c ps).2 c.errorTolerance = true →
      lmGo c (fuel + 1) iter ps e false =
        (⟨(lmPass c ps).1, (lmPass c ps).2, iter + 1⟩,
          if c.logAfterIteration then [Event.log (lmPass c ps).2 (lmPass c ps).1]
          else [])) := by
  constructor
  · intro ec st xs ys f fLen o ps0 hdamp hx hy hxy hinit hb hconv
    rw [fitGen_ok_eq ec st xs ys f fLen o ps0 hdamp hx hy hxy hinit hb, hconv,
      lmGo_stop]
  · intro c fuel iter ps e hconv
    rw [lmGo_succ, if_neg (by rw [jle_true_not_nan hconv]; simp), hconv,
      lmGo_stop]
    cases c.logAfterIteration <;> simp

theorem claim1_witness :
    levenbergMarquardtGen (fun _ _ _ => .num 0) (fun _ _ _ _ _ => [])
      ⟨.arr [.num 0, .num 1], .arr [.num 0, .num 0]⟩ (fun _ _ => .num 0) 1
      { damping := .num 1, initialValues := .arr [.num 7] } =
      .ok (⟨[.num 7], .num 0, 0⟩, []) :=
  claim1_convergence_stops.1 (fun _ _ _ => .num 0) (fun _ _ _ _ _ => [])
    [.num 0, .num 1] [.num 0, .num 0] (fun _ _ => .num 0) 1
    { damping := .num 1, initialValues := .arr [.num 7] } [.num 7]
    (by decide) (by decide) (by decide) rfl rfl (by decide) (by decide)

/-- C2.  When a pass's recomputed error is `NaN`, the loop stops right
there: the result is exactly that pass's clamped (NaN-producing) parameters
and the `NaN` error, with no log event, no convergence check and no further
step, independently of the fuel remaining — not the state of the previous
iteration. -/
theorem claim2_nan_stops (c : LoopCtx) (fuel iter : ℕ) (ps : List JNum)
    (e : JNum) (hnan : jIsNaN (lmPass c ps).2 = true) :
    lmGo c (fuel + 1) iter ps e false =
      (⟨(lmPass c ps).1, (lmPass c ps).2, iter⟩, []) := by
  rw [lmGo_succ, if_pos hnan]

theorem claim2_witness :
    lmGo ⟨fun _ _ _ => .nan, fun _ _ _ _ _ => [], [.num 0, .num 1],
        [.num 0, .num 0], fun _ _ => .num 0, false, false, .num 1,
        .num (Rat.divInt 1 10), .num (Rat.divInt 1 100), .num 0, .num 0, [],
        [], 0⟩ 5 0 [] .nan false =
      (⟨[], .nan, 0⟩, []) :=
  claim2_nan_stops ⟨fun _ _ _ => .nan, fun _ _ _ _ _ => [], [.num 0, .num 1],
    [.num 0, .num 0], fun _ _ => .num 0, false, false, .num 1,
    .num (Rat.divInt 1 10), .num (Rat.divInt 1 100), .num 0, .num 0, [],
    [], 0⟩ 4 0 [] .nan (by decide)

/-- C9.  The pass that produces the `NaN` error does not increment the
iteration counter: the result's `iterations` equals the 0-based index of the
diverging pass.  In particular a run whose very first pass diverges (with the
initial error above tolerance) returns `iterations = 0`, the same count as a
run that converges immediately. -/
theorem claim9_nan_iteration_count :
    (∀ (c : LoopCtx) (fuel iter : ℕ) (ps : List JNum) (e : JNum),
      jIsNaN (lmPass c ps).2 = true →
      ((lmGo c (fuel + 1) iter ps e false).1).iterations = iter) ∧
    (∀ (ec : EC) (st : ST) (xs ys : List JNum) (f : Model) (fLen : ℕ)
      (o : Options) (ps0 : List JNum),
      jle o.damping (.num 0) = false →
      2 ≤ xs.length → 2 ≤ ys.length → xs.length = ys.length →
      jsOr o.initialValues (.arr (List.replicate fLen (.num 1))) = .arr ps0 →
      jsLength (jsOr o.maxValues (.arr (List.replicate ps0.length (.num maxSafeInteger)))) =
        jsLength (jsOr o.minValues (.arr (List.replicate ps0.length (.num minSafeInteger)))) →
      jle (ec (xs, ys) ps0 f) o.errorTolerance = false →
      1 ≤ o.maxIterations →
      jIsNaN ((lmPass
        ⟨ec, st, xs, ys, f, o.alignToData, o.logAfterIteration, o.damping,
          o.gradientDifference, o.errorTolerance, jminList ys, jmaxList ys,
          jsElems (jsOr o.minValues (.arr (List.replicate ps0.length (.num minSafeInteger)))),
          jsElems (jsOr o.maxValues (.arr (List.replicate ps0.length (.num maxSafeInteger)))),
          ps0.length⟩ ps0).2) = true →
      (levenbergMarquardtGen ec st ⟨.arr xs, .arr ys⟩ f fLen o).toOption.map
        (fun r => r.1.iterations) = some 0) := by
  constructor
  · intro c fuel iter ps e hnan
    rw [lmGo_succ, if_pos hnan]
  · intro ec st xs ys f fLen o ps0 hdamp hx hy hxy hinit hb hnc hmax hnan
    rw [fitGen_ok_eq ec st xs ys f fLen o ps0 hdamp hx hy hxy hinit hb, hnc]
    obtain ⟨n, hn⟩ : ∃ n, o.maxIterations = n + 1 :=
      ⟨o.maxIterations - 1, by omega⟩
    rw [hn, lmGo_succ, if_pos hnan]
    rfl

theorem claim9_witness :
    (levenbergMarquardtGen (fun _ _ _ => .nan) (fun _ _ _ _ _ => [])
      ⟨.arr [.num 0, .num 1], .arr [.num 0, .num 0]⟩ (fun _ _ => .num 0) 1
      { damping := .num 1, initialValues := .arr [.num 7] }).toOption.map
        (fun r => r.1.iterations) = some 0 :=
  claim9_nan_iteration_count.2 (fun _ _ _ => .nan) (fun _ _ _ _ _ => [])
    [.num 0, .num 1] [.num 0, .num 0] (fun _ _ => .num 0) 1
    { damping := .num 1, initialValues := .arr [.num 7] } [.num 7]
    (by decide) (by decide) (by decide) rfl rfl (by decide) (by decide)
    (by decide) (by decide)

theorem lmGo_inBounds_after_pass (c : LoopCtx) (fuel iter : ℕ)
    (ps : List JNum) (e : JNum) :
    inBounds c.minL c.maxL c.parLen
      ((lmGo c (fuel + 1) iter ps e false).1).parameterValues = true := by
  rw [lmGo_succ]
  cases hn : jIsNaN (lmPass c ps).2 with
  | true =>
      simp only [hn, if_true]
      rw [lmPass_fst]
      exact inBounds_clampParams _ _ _ _
  | false =>
      simp only [hn, Bool.false_eq_true, if_false]
      apply lmGo_inBounds
      rw [lmPass_fst]
      exact inBounds_clampParams _ _ _ _

/-- C3 counterexample.  A fit that converges immediately (zero iterations)
returns `initialValues` untouched, even when they violate the bounds: with
`initialValues = [5]`, `minValues = [0]`, `maxValues = [1]` and data the
constant-zero model fits exactly, the result is `[5]`, which fails the
bounds predicate `0 ≤ p ≤ 1`. -/
theorem claim3_counterexample :
    levenbergMarquardt ⟨.arr [.num 0, .num 1], .arr [.num 0, .num 0]⟩
      (fun _ _ => .num 0) 1
      { damping := .num 1, initialValues := .arr [.num 5],
        minValues := .arr [.num 0], maxValues := .arr [.num 1] } =
      .ok (⟨[.num 5], .num 0, 0⟩, []) ∧
    inBounds [.num 0] [.num 1] 1 [.num 5] = false :=
  ⟨by rfl, by decide⟩

/-- C3 amended.  The bounds invariant holds for every result produced after
at least one loop pass (initial error above tolerance and a positive
iteration budget): each of the first `parLen` parameter slots with numeric,
correctly ordered bounds holds `NaN` or a value inside the bounds.  Results
returned after zero iterations are `initialValues` as given, which rule the
original claim out (see the counterexample). -/
theorem claim3_bounds_after_pass (ec : EC) (st : ST) (xs ys : List JNum)
    (f : Model) (fLen : ℕ) (o : Options) (ps0 : List JNum)
    (hdamp : jle o.damping (.num 0) = false)
    (hx : 2 ≤ xs.length) (hy : 2 ≤ ys.length) (hxy : xs.length = ys.length)
    (hinit : jsOr o.initialValues (.arr (List.replicate fLen (.num 1))) = .arr ps0)
    (hb : jsLength (jsOr o.maxValues (.arr (List.replicate ps0.length (.num maxSafeInteger)))) =
          jsLength (jsOr o.minValues (.arr (List.replicate ps0.length (.num minSafeInteger)))))
    (hnc : jle (ec (xs, ys) ps0 f) o.errorTolerance = false)
    (hmax : 1 ≤ o.maxIterations) :
    (levenbergMarquardtGen ec st ⟨.arr xs, .arr ys⟩ f fLen o).toOption.map
      (fun r => inBounds
        (jsElems (jsOr o.minValues (.arr (List.replicate ps0.length (.num minSafeInteger)))))
        (jsElems (jsOr o.maxValues (.arr (List.replicate ps0.length (.num maxSafeInteger)))))
        ps0.length r.1.parameterValues) = some true := by
  rw [fitGen_ok_eq ec st xs ys f fLen o ps0 hdamp hx hy hxy hinit hb, hnc]
  obtain ⟨n, hn⟩ : ∃ n, o.maxIterations = n + 1 :=
    ⟨o.maxIterations - 1, by omega⟩
  rw [hn]
  exact congrArg some (lmGo_inBounds_after_pass
    ⟨ec, st, xs, ys, f, o.alignToData, o.logAfterIteration, o.damping,
      o.gradientDifference, o.errorTolerance, jminList ys, jmaxList ys,
      jsElems (jsOr o.minValues (.arr (List.replicate ps0.length (.num minSafeInteger)))),
      jsElems (jsOr o.maxValues (.arr (List.replicate ps0.length (.num maxSafeInteger)))),
      ps0.length⟩ n 0 ps0 (ec (xs, ys) ps0 f))

theorem claim3_witness :
    (levenbergMarquardtGen (fun _ _ _ => .num 7) (fun _ _ _ _ _ => [.num 9])
      ⟨.arr [.num 0, .num 1], .arr [.num 0, .num 0]⟩ (fun _ _ => .num 0) 1
      { damping := .num 1, initialValues := .arr [.num 5], maxIterations := 1,
        minValues := .arr [.num 0], maxValues := .arr [.num 1] }).toOption.map
      (fun r => inBounds
        (jsElems (jsOr (.arr [.num 0]) (.arr (List.replicate 1 (.num minSafeInteger)))))
        (jsElems (jsOr (.arr [.num 1]) (.arr (List.replicate 1 (.num maxSafeInteger)))))
        1 r.1.parameterValues) = some true :=
  claim3_bounds_after_pass (fun _ _ _ => .num 7) (fun _ _ _ _ _ => [.num 9])
    [.num 0, .num 1] [.num 0, .num 0] (fun _ _ => .num 0) 1
    { damping := .num 1, initialValues := .arr [.num 5], maxIterations := 1,
      minValues := .arr [.num 0], maxValues := .arr [.num 1] } [.num 5]
    (by decide) (by decide) (by decide) rfl rfl rfl (by decide) (by decide)

/-- C4.  Every successful fit returns an iteration count bounded by
`maxIterations` (for the default options record, 100). -/
theorem claim4_iterations_le_max (ec : EC) (st : ST) (data : JsData)
    (f : Model) (fLen : ℕ) (o : Options) (r : FitOut) (tr : List Event)
    (h : levenbergMarquardtGen ec st data f fLen o = .ok (r, tr)) :
    r.iterations ≤ o.maxIterations := by
  obtain ⟨dx, dy⟩ := data
  simp only [levenbergMarquardtGen] at h
  split at h
  · exact absurd h (by simp)
  split at h
  · exact absurd h (by simp)
  split at h
  case _ xs ys =>
    split at h
    · exact absurd h (by simp)
    split at h
    · exact absurd h (by simp)
    split at h
    · exact absurd h (by simp)
    split at h
    case _ params0 heq =>
      have h1 := congrArg Prod.fst (Except.ok.inj h)
      have h2 := congrArg FitOut.iterations h1
      simp only at h2
      rw [← h2]
      simpa using lmGo_iterations_le _ o.maxIterations 0 _ _ _
    case _ => exact absurd h (by simp)
  case _ => exact absurd h (by simp)

theorem claim4_witness :
    (⟨[.num 5], .num 0, 0⟩ : FitOut).iterations ≤
      ({ damping := .num 1, initialValues := .arr [.num 5],
         minValues := .arr [.num 0], maxValues := .arr [.num 1] } : Options).maxIterations :=
  claim4_iterations_le_max errorCalculation step
    ⟨.arr [.num 0, .num 1], .arr [.num 0, .num 0]⟩ (fun _ _ => .num 0) 1
    { damping := .num 1, initialValues := .arr [.num 5],
      minValues := .arr [.num 0], maxValues := .arr [.num 1] }
    ⟨[.num 5], .num 0, 0⟩ [] (by rfl)

/-- C10.  With both bounds given as arrays of one common length, validation
passes even when that length differs from the parameter count: the check
compares the two bound arrays only with each other. -/
theorem claim10_bounds_length_unchecked (ec : EC) (st : ST)
    (xs ys : List JNum) (f : Model) (fLen : ℕ) (o : Options)
    (ps0 minl maxl : List JNum)
    (hdamp : jle o.damping (.num 0) = false)
    (hx : 2 ≤ xs.length) (hy : 2 ≤ ys.length) (hxy : xs.length = ys.length)
    (hinit : o.initialValues = .arr ps0)
    (hmin : o.minValues = .arr minl) (hmax : o.maxValues = .arr maxl)
    (hlen : minl.length = maxl.length) (hne : minl.length ≠ ps0.length) :
    isErr (levenbergMarquardtGen ec st ⟨.arr xs, .arr ys⟩ f fLen o) = false := by
  rw [fitGen_ok_eq ec st xs ys f fLen o ps0 hdamp hx hy hxy
    (by rw [hinit]; rfl)
    (by rw [hmin, hmax]; simp [jsOr, jsLength, hlen])]
  rfl

theorem claim10_witness :
    isErr (levenbergMarquardtGen (fun _ _ _ => .num 7) (fun _ _ _ _ _ => [])
      ⟨.arr [.num 0, .num 1], .arr [.num 0, .num 0]⟩ (fun _ _ => .num 0) 1
      { damping := .num 1, initialValues := .arr [.num 5],
        minValues := .arr [.num 0, .num 2], maxValues := .arr [.num 1, .num 3] }) =
      false :=
  claim10_bounds_length_unchecked (fun _ _ _ => .num 7) (fun _ _ _ _ _ => [])
    [.num 0, .num 1] [.num 0, .num 0] (fun _ _ => .num 0) 1
    { damping := .num 1, initialValues := .arr [.num 5],
      minValues := .arr [.num 0, .num 2], maxValues := .arr [.num 1, .num 3] }
    [.num 5] [.num 0, .num 2] [.num 1, .num 3]
    (by decide) (by decide) (by decide) rfl rfl rfl rfl (by decide) (by decide)

/-- C6.  For finite `dataMin`, `dataMax`, `funMin`, `funMax` with
`funMin ≠ funMax`, the coefficients `a = (dataMin − dataMax)/(funMin − funMax)`
and `b = dataMax − a·funMax` computed by `getLinearParams` map the model
range onto the data range exactly (`a·funMin + b = dataMin` and
`a·funMax + b = dataMax`), and the model wrapped by `alignedFunction`
returns `a·(original output) + b` for every parameter vector and every x. -/
theorem jadd_num (a b : ℚ) : jadd (.num a) (.num b) = .num (a + b) := by
  rw [jadd, qadd_eq]

theorem jsub_num (a b : ℚ) : jsub (.num a) (.num b) = .num (a - b) := by
  rw [jsub, jneg, jadd, qneg_eq, qadd_eq, sub_eq_add_neg]

theorem jmul_num (a b : ℚ) : jmul (.num a) (.num b) = .num (a * b) := by
  rw [jmul, qmul_eq]

theorem jdiv_num (a b : ℚ) (hb : b ≠ 0) :
    jdiv (.num a) (.num b) = .num (a / b) := by
  rw [jdiv, if_neg hb, qdiv_eq]

theorem claim6_alignment (dm dM fm fM : ℚ) (hne : fm ≠ fM) (f : Model)
    (toAlign : List JNum) (hmin : jminList toAlign = .num fm)
    (hmax : jmaxList toAlign = .num fM) :
    jadd (jmul (getLinearParams (.num dm) (.num dM) (.num fm) (.num fM)).1 (.num fm))
      (getLinearParams (.num dm) (.num dM) (.num fm) (.num fM)).2 = .num dm ∧
    jadd (jmul (getLinearParams (.num dm) (.num dM) (.num fm) (.num fM)).1 (.num fM))
      (getLinearParams (.num dm) (.num dM) (.num fm) (.num fM)).2 = .num dM ∧
    ∀ (ps : List JNum) (x : JNum),
      alignedFunction f (.num dm) (.num dM) toAlign ps x =
        jadd (jmul (getLinearParams (.num dm) (.num dM) (.num fm) (.num fM)).1 (f ps x))
          (getLinearParams (.num dm) (.num dM) (.num fm) (.num fM)).2 := by
  have h : fm - fM ≠ 0 := sub_ne_zero.2 hne
  have hA : (getLinearParams (.num dm) (.num dM) (.num fm) (.num fM)).1 =
      .num ((dm - dM) / (fm - fM)) := by
    show jdiv (jsub (.num dm) (.num dM)) (jsub (.num fm) (.num fM)) = _
    rw [jsub_num, jsub_num, jdiv_num _ _ h]
  have hB : (getLinearParams (.num dm) (.num dM) (.num fm) (.num fM)).2 =
      .num (dM - (dm - dM) / (fm - fM) * fM) := by
    show jsub (.num dM)
      (jmul (jdiv (jsub (.num dm) (.num dM)) (jsub (.num fm) (.num fM))) (.num fM)) = _
    rw [jsub_num, jsub_num, jdiv_num _ _ h, jmul_num, jsub_num]
  refine ⟨?_, ?_, ?_⟩
  · rw [hA, hB, jmul_num, jadd_num, JNum.num.injEq]
    field_simp
    ring
  · rw [hA, hB, jmul_num, jadd_num, JNum.num.injEq]
    field_simp
  · intro ps x
    rw [alignedFunction, hmin, hmax]

theorem claim6_witness :
    jadd (jmul (getLinearParams (.num 0) (.num 1) (.num 0) (.num 2)).1 (.num 0))
      (getLinearParams (.num 0) (.num 1) (.num 0) (.num 2)).2 = .num 0 :=
  (claim6_alignment 0 1 0 2 (by norm_num) (fun _ _ => .num 0)
    [.num 0, .num 2] (by decide) (by decide)).1

/-- C7 counterexample.  The default bounds are the safe-integer extremes
`±(2^53 − 1)`, not the extremes of the representable range, and they do
alter finite parameters: in a run with default bounds the update step
produces the finite parameter `2^53`, but the result of the fit carries the
clamped value `2^53 − 1 = maxSafeInteger` instead. -/
theorem claim7_counterexample :
    (levenbergMarquardt
      ⟨.arr [.num 0, .num 1], .arr [.num 13510798882111488, .num 13510798882111488]⟩
      (fun ps _ => ps.getD 0 .nan) 1
      { damping := .num 1, initialValues := .arr [.num 0],
        maxIterations := 1 }).toOption.map (fun r => r.1.parameterValues) =
      some [.num maxSafeInteger] ∧
    step ([.num 0, .num 1], [.num 13510798882111488, .num 13510798882111488])
      [.num 0] (.num 1) (.num (Rat.divInt 1 10)) (fun ps _ => ps.getD 0 .nan) =
      [.num 9007199254740992] ∧
    (9007199254740992 : ℚ) ≠ maxSafeInteger :=
  ⟨by decide, by decide, by decide⟩

/-- C7 amended.  The default bounds equal `±(2^53 − 1)`
(`Number.MAX_SAFE_INTEGER` / `Number.MIN_SAFE_INTEGER`), so the default
clamp leaves exactly those finite parameters unchanged whose magnitude is at
most `2^53 − 1`; larger finite values are clamped (see the
counterexample). -/
theorem claim7_default_clamp :
    maxSafeInteger = 2 ^ 53 - 1 ∧ minSafeInteger = -(2 ^ 53 - 1) ∧
    ∀ p : ℚ, |p| ≤ maxSafeInteger →
      jmin (jmax (.num minSafeInteger) (.num p)) (.num maxSafeInteger) = .num p := by
  refine ⟨by norm_num [maxSafeInteger], by norm_num [minSafeInteger], ?_⟩
  intro p hp
  rw [abs_le] at hp
  have h1 : minSafeInteger ≤ p := by
    have := hp.1
    rw [minSafeInteger, maxSafeInteger] at *
    linarith
  have h2 : p ≤ maxSafeInteger := hp.2
  rw [jmax, max_eq_right h1, jmin, min_eq_left h2]

theorem claim7_witness :
    jmin (jmax (.num minSafeInteger) (.num 0)) (.num maxSafeInteger) = .num 0 :=
  claim7_default_clamp.2.2 0 (by norm_num [maxSafeInteger])

/-- C8 counterexample.  Putting an `onIteration` entry in the options does
nothing: the source destructures no such key.  In a run that completes one
iteration with `onIteration` present, the event list is empty — no observer
is invoked after the completed iteration. -/
theorem claim8_counterexample :
    (levenbergMarquardt ⟨.arr [.num 0, .num 1], .arr [.num 2, .num 2]⟩
      (fun ps _ => ps.getD 0 .nan) 1
      { damping := .num 2, initialValues := .arr [.num 0],
        maxIterations := 1, onIteration := some () }).toOption.map
      (fun r => (r.1.iterations, r.2)) = some (1, ([] : List Event)) := by
  decide

/-- C8 amended.  The only side channel is the `console.log` line guarded by
`logAfterIteration`: with the flag off the event list of every successful
fit is empty; with it on there is exactly one event per counted iteration;
and every event is a log event carrying a non-`NaN` error (the `NaN`-break
pass logs nothing) — never an `onIteration` callback. -/
theorem lmGo_trace_length0 (c : LoopCtx) (hlog : c.logAfterIteration = true)
    (fuel : ℕ) (ps : List JNum) (e : JNum) (conv : Bool) :
    (lmGo c fuel 0 ps e conv).2.length = ((lmGo c fuel 0 ps e conv).1).iterations := by
  have h := lmGo_trace_length c hlog fuel 0 ps e conv
  omega

theorem claim8_log_only_side_channel (ec : EC) (st : ST) (data : JsData)
    (f : Model) (fLen : ℕ) (o : Options) (r : FitOut) (tr : List Event)
    (h : levenbergMarquardtGen ec st data f fLen o = .ok (r, tr)) :
    (o.logAfterIteration = false → tr = []) ∧
    (o.logAfterIteration = true → tr.length = r.iterations) ∧
    (∀ ev ∈ tr, ∃ er qs, ev = Event.log er qs ∧ jIsNaN er = false) := by
  obtain ⟨dx, dy⟩ := data
  simp only [levenbergMarquardtGen] at h
  split at h
  · exact absurd h (by simp)
  split at h
  · exact absurd h (by simp)
  split at h
  · split at h
    · exact absurd h (by simp)
    split at h
    · exact absurd h (by simp)
    split at h
    · exact absurd h (by simp)
    split at h
    · have hr := congrArg Prod.fst (Except.ok.inj h)
      have htr := congrArg Prod.snd (Except.ok.inj h)
      simp only at hr htr
      refine ⟨?_, ?_, ?_⟩
      · intro hlog
        rw [← htr]
        exact lmGo_trace_nil _ hlog _ _ _ _ _
      · intro hlog
        rw [← htr, ← hr]
        exact lmGo_trace_length0 _ hlog _ _ _ _
      · intro ev hev
        rw [← htr] at hev
        exact lmGo_trace_mem _ _ _ _ _ _ ev hev
    · exact absurd h (by simp)
  · exact absurd h (by simp)

theorem claim8_witness :
    (([Event.log (.num 1) [.num 1]] : List Event)).length =
      (⟨[.num 1], .num 1, 1⟩ : FitOut).iterations :=
  (claim8_log_only_side_channel errorCalculation step
    ⟨.arr [.num 0, .num 1], .arr [.num 2, .num 2]⟩
    (fun ps _ => ps.getD 0 .nan) 1
    { damping := .num 2, initialValues := .arr [.num 0],
      maxIterations := 1, logAfterIteration := true }
    ⟨[.num 1], .num 1, 1⟩ [Event.log (.num 1) [.num 1]] (by rfl)).2.1 rfl

theorem isErr_ok (x : FitOut × List Event) :
    isErr ((Except.ok x : Except String (FitOut × List Event))) = false := rfl

theorem isErr_error (e : String) :
    isErr ((Except.error e : Except String (FitOut × List Event))) = true := rfl

theorem isErr_ite_ok_error (c : Prop) [Decidable c] (x : FitOut × List Event)
    (e : String) :
    isErr (if c then Except.ok x else Except.error e) = !decide c := by
  by_cases h : c <;> simp_all [isErr]

theorem isErr_ite_error_error (c : Prop) [Decidable c] (e1 e2 : String) :
    isErr (if c then (Except.error e1 : Except String (FitOut × List Event))
      else Except.error e2) = true := by
  by_cases h : c <;> simp_all [isErr]

/-- C5.  The fit throws exactly when one of the section-7 validation
conditions holds: damping missing or not positive; data missing `x` or `y`,
either not a sequence, shorter than 2, or of mismatched lengths; bound
lengths unequal (after defaulting the absent one); or a present non-sequence
`initialValues` (a falsy entry counts as absent, as `initialValues || ...`
makes it unobservable).  In particular `damping = 0`, mismatched data
lengths, and `data.x = [1]` each raise a validation error. -/
theorem claim5_validation_iff :
    (∀ (ec : EC) (st : ST) (data : JsData) (f : Model) (fLen : ℕ) (o : Options),
      isErr (levenbergMarquardtGen ec st data f fLen o) =
        validationFails data fLen o) ∧
    isErr (levenbergMarquardt ⟨.arr [.num 1, .num 2], .arr [.num 1, .num 2]⟩
      (fun _ _ => .num 0) 1 { damping := .num 0 }) = true ∧
    isErr (levenbergMarquardt ⟨.arr [.num 1, .num 2], .arr [.num 1, .num 2, .num 3]⟩
      (fun _ _ => .num 0) 1 { damping := .num 1 }) = true ∧
    isErr (levenbergMarquardt ⟨.arr [.num 1], .arr [.num 1, .num 2]⟩
      (fun _ _ => .num 0) 1 { damping := .num 1 }) = true := by
  refine ⟨?_, by decide, by decide, by decide⟩
  intro ec st data f fLen o
  obtain ⟨dx, dy⟩ := data
  simp only [levenbergMarquardtGen, validationFails, dataBad, boundsMismatch]
  cases hd : jle o.damping (.num 0)
  case true => simp [isErr, hd]
  case false =>
    simp only [hd, Bool.false_eq_true, if_false, Bool.false_or]
    cases dx with
    | falsy => simp [jsFalsy, isErr]
    | nonArr => cases dy <;> simp [jsFalsy, isErr]
    | arr xs =>
      cases dy with
      | falsy => simp [jsFalsy, isErr]
      | nonArr => simp [jsFalsy, isErr]
      | arr ys =>
        simp only [jsFalsy, Bool.or_self, Bool.false_eq_true, if_false]
        by_cases hx2 : xs.length < 2
        · simp [hx2, isErr]
        by_cases hy2 : ys.length < 2
        · simp [hx2, hy2, isErr]
        by_cases hxy : xs.length = ys.length
        · simp only [hx2, hy2, hxy, decide_eq_true_eq, ne_eq, not_true_eq_false,
            Bool.or_false, Bool.false_or, not_false_eq_true]
          cases hiv : o.initialValues <;> cases hmin : o.minValues <;>
            cases hmax : o.maxValues <;>
            simp [jsOr, jsParLen, jsLength, isNonArr, List.length_replicate,
              isErr_ite_ok_error, isErr_ite_error_error, isErr_ok, isErr_error]
        · simp [hx2, hy2, hxy, isErr]

end LM
